import Mathlib

/-!
# Verification of the cachego backend contract

Shallow embedding of the cachego repository (Go): a cache abstraction over
three backends — an in-memory store (patrickmn/go-cache), an embedded
key-value engine with no native expiration (dgraph-io/badger), and a
networked store (go-redis).  The embedding follows the source files
`src/cache.go`, `src/config/config.go`, `src/providers/badger.go` and
`src/providers/goCache.go`.

Modelling conventions:
* Time is modelled at Unix-second granularity as `Int` (the badger read
  path compares `TTL.Unix() <= now.Unix()`, i.e. whole seconds); durations
  are `Int` seconds.
* Go byte slices are `List Nat`; a Go `error` is `Option String` with
  `none` for the nil error.
* The badger store is an association list from physical record keys to
  byte values; a write transaction is a list of staged writes that reaches
  the store only through a successful commit (badger's discard-unless-
  committed guarantee).
* `encoding/json` marshalling of a Go `[]byte` is base64 inside quotes,
  as the Go library produces; marshalling of a `time.Time` is modelled as
  an injective byte encoding of the Unix timestamp with an executable
  decoder (the code relies only on round-tripping).
* Calls into external libraries that can fail (json.Marshal, txn.Set,
  txn.Commit, badger.Open) take explicit fault parameters; the fault-free
  instantiation is the normal run.
-/

set_option autoImplicit false

namespace Cachego

/-- Go byte slices, as lists of byte values. -/
abbrev Bytes := List Nat

/-- A Go `error` result: `none` is the nil error. -/
abbrev GoErr := Option String

/-- `Unix()` of Go's zero `time.Time` (January 1, year 1 UTC). -/
def goZeroTimeUnix : Int := -62135596800

/-! ## Association-list maps

The badger store, the go-cache map and the redis keyspace are all finite
maps; we embed them as association lists with at most one binding per key
(maintained by `alistSet`). -/

/-- Look up the first binding of `k`. -/
def alistGet {β : Type} : List (String × β) → String → Option β
  | [], _ => none
  | p :: t, k => if p.1 = k then some p.2 else alistGet t k

/-- Remove every binding of `k`. -/
def alistDel {β : Type} : List (String × β) → String → List (String × β)
  | [], _ => []
  | p :: t, k => if p.1 = k then alistDel t k else p :: alistDel t k

/-- Upsert: bind `k` to `v`, removing any previous binding. -/
def alistSet {β : Type} (s : List (String × β)) (k : String) (v : β) :
    List (String × β) :=
  (k, v) :: alistDel s k

theorem alistGet_del_self {β : Type} (s : List (String × β)) (k : String) :
    alistGet (alistDel s k) k = none := by
  induction s with
  | nil => rfl
  | cons p t ih =>
    by_cases h : p.1 = k
    · simpa [alistDel, h] using ih
    · simpa [alistDel, alistGet, h] using ih

theorem alistGet_del_ne {β : Type} (s : List (String × β)) (k k' : String)
    (h : k' ≠ k) : alistGet (alistDel s k) k' = alistGet s k' := by
  induction s with
  | nil => rfl
  | cons p t ih =>
    by_cases hp : p.1 = k
    · have hk : ¬ p.1 = k' := by
        rw [hp]; exact fun he => h he.symm
      rw [alistDel, if_pos hp, ih, alistGet, if_neg hk]
    · by_cases hp' : p.1 = k'
      · rw [alistDel, if_neg hp]
        rw [alistGet, if_pos hp', alistGet, if_pos hp']
      · rw [alistDel, if_neg hp]
        rw [alistGet, if_neg hp', alistGet, if_neg hp', ih]

theorem alistGet_set_self {β : Type} (s : List (String × β)) (k : String)
    (v : β) : alistGet (alistSet s k v) k = some v := by
  simp [alistSet, alistGet]

theorem alistGet_set_ne {β : Type} (s : List (String × β)) (k k' : String)
    (v : β) (h : k' ≠ k) :
    alistGet (alistSet s k v) k' = alistGet s k' := by
  have h' : k ≠ k' := fun hk => h hk.symm
  simp [alistSet, alistGet, h', alistGet_del_ne s k k' h]

theorem alistDel_of_get_none {β : Type} (s : List (String × β)) (k : String)
    (h : alistGet s k = none) : alistDel s k = s := by
  induction s with
  | nil => rfl
  | cons p t ih =>
    by_cases hp : p.1 = k
    · simp [alistGet, hp] at h
    · simp [alistGet, hp] at h
      simp [alistDel, hp, ih h]

/-! ## Serialization models -/

/-- Little-endian base-256 digits, structurally recursive on a fuel
bound (any fuel at least the number itself is enough). -/
def natToBytesAux : Nat → Nat → Bytes
  | _, 0 => []
  | 0, _ + 1 => []
  | fuel + 1, n + 1 => (n + 1) % 256 :: natToBytesAux fuel ((n + 1) / 256)

/-- Little-endian base-256 digits of a natural number. -/
def natToBytes (n : Nat) : Bytes := natToBytesAux n n

/-- Reassemble a natural number from its base-256 digits. -/
def bytesToNat : Bytes → Nat
  | [] => 0
  | d :: ds => d + 256 * bytesToNat ds

theorem bytesToNat_natToBytesAux (fuel n : Nat) (h : n ≤ fuel) :
    bytesToNat (natToBytesAux fuel n) = n := by
  induction fuel generalizing n with
  | zero =>
    interval_cases n
    rfl
  | succ f ih =>
    match n with
    | 0 => rfl
    | Nat.succ m =>
      have hdiv : (m + 1) / 256 ≤ f := by
        have h1 : (m + 1) / 256 < m + 1 :=
          Nat.div_lt_self (Nat.succ_pos m) (by norm_num)
        omega
      rw [natToBytesAux, bytesToNat, ih _ hdiv]
      exact Nat.mod_add_div (m + 1) 256

theorem bytesToNat_natToBytes (n : Nat) : bytesToNat (natToBytes n) = n :=
  bytesToNat_natToBytesAux n n le_rfl

/-- Model of `json.Marshal` on a `time.Time`: an injective byte encoding
of the Unix timestamp (sign tag followed by base-256 digits).  The source
only relies on marshalled times round-tripping through `json.Unmarshal`. -/
def marshalTime (t : Int) : Bytes :=
  if 0 ≤ t then 0 :: natToBytes t.toNat else 1 :: natToBytes (-t).toNat

/-- Model of `json.Unmarshal` into a `time.Time`: decodes exactly the
byte strings produced by `marshalTime`, failing on anything else. -/
def unmarshalTime : Bytes → Option Int
  | 0 :: ds => some ((bytesToNat ds : Nat) : Int)
  | 1 :: ds => some (-((bytesToNat ds : Nat) : Int))
  | _ => none

theorem unmarshalTime_marshalTime (t : Int) :
    unmarshalTime (marshalTime t) = some t := by
  by_cases h : 0 ≤ t
  · simp [marshalTime, unmarshalTime, h, bytesToNat_natToBytes,
      Int.toNat_of_nonneg h]
  · have h' : 0 ≤ -t := by omega
    simp [marshalTime, unmarshalTime, h, bytesToNat_natToBytes]
    omega

/-- The base64 alphabet, by 6-bit group value. -/
def base64Char (n : Nat) : Nat :=
  if n < 26 then 65 + n
  else if n < 52 then 97 + (n - 26)
  else if n < 62 then 48 + (n - 52)
  else if n = 62 then 43
  else 47

/-- Standard base64 of a byte string (with `=` padding), as Go's
`encoding/base64` produces for `json.Marshal` of a `[]byte`. -/
def base64Encode : Bytes → Bytes
  | [] => []
  | [a] => [base64Char (a / 4), base64Char (a % 4 * 16), 61, 61]
  | [a, b] => [base64Char (a / 4), base64Char (a % 4 * 16 + b / 16),
      base64Char (b % 16 * 4), 61]
  | a :: b :: c :: rest =>
      base64Char (a / 4) :: base64Char (a % 4 * 16 + b / 16) ::
      base64Char (b % 16 * 4 + c / 64) :: base64Char (c % 64) ::
      base64Encode rest

/-- Model of `json.Marshal` on a Go `[]byte`: the base64 text wrapped in
double quotes (byte 34). -/
def jsonMarshalBytes (b : Bytes) : Bytes := 34 :: (base64Encode b ++ [34])

/-! ## Emulated-TTL adapter: `src/providers/badger.go`

The badger engine itself is a raw byte-string map; the adapter splits each
logical key into the physical records `key_content` and `key_ttl`. -/

/-- The badger keyspace: physical record key to stored byte value. -/
abbrev Store := List (String × Bytes)

/-- A read of the badger store (`txn.Get` inside a read transaction). -/
def storeGet (s : Store) (k : String) : Option Bytes := alistGet s k

/-- `BadgerItem` (badger.go lines 39-42): the TTL is a `time.Time`
(here its Unix value, defaulting to the zero time) and the content an
`interface` value (here an optional byte string, `none` for Go nil). -/
structure BadgerItem where
  TTL : Int := goZeroTimeUnix
  Content : Option Bytes := none
deriving Repr, DecidableEq

/-- `BadgerCache.retrieveFromCache` (badger.go lines 188-235): fetch the
`_ttl` record (absent means an empty item and a nil error), deserialize
it, then fetch the `_content` record (absent leaves the content nil). -/
def retrieveFromCache (s : Store) (cacheKey : String) :
    Except String BadgerItem :=
  match storeGet s (cacheKey ++ "_ttl") with
  | none => .ok {}
  | some v =>
    match unmarshalTime v with
    | none => .error "json: cannot unmarshal value into time.Time"
    | some ttl =>
      match storeGet s (cacheKey ++ "_content") with
      | none => .ok { TTL := ttl, Content := none }
      | some cv => .ok { TTL := ttl, Content := some cv }

/-- `BadgerCache.delete` (badger.go lines 239-263): one transaction that
deletes the `_content` record then the `_ttl` record and commits. -/
def badgerDelete (s : Store) (cacheKey : String) : Store :=
  alistDel (alistDel s (cacheKey ++ "_content")) (cacheKey ++ "_ttl")

/-- The `interface` value returned first by `BadgerCache.Get`: nil on the
error path, the whole `BadgerItem` struct on the expired path, and the
item's content field on the live path. -/
inductive BadgerGetVal where
  | goNil
  | ofItem (it : BadgerItem)
  | ofContent (c : Option Bytes)
deriving Repr, DecidableEq

/-- `BadgerCache.Get` (badger.go lines 71-88): retrieve the item; if its
TTL (in Unix seconds) is at or before now, delete both records (the
returned error of `delete` is ignored) and report not found with a nil
error; otherwise return the content with found true.  The resulting store
is returned alongside since the stale path mutates it. -/
def badgerGet (s : Store) (cacheKey : String) (now : Int) :
    (BadgerGetVal × Bool × GoErr) × Store :=
  match retrieveFromCache s cacheKey with
  | .error e => ((.goNil, false, some e), s)
  | .ok item =>
    if item.TTL ≤ now then
      ((.ofItem item, false, none), badgerDelete s cacheKey)
    else
      ((.ofContent item.Content, true, none), s)

/-- Fault parameters for `BadgerCache.Set`: each fallible library call in
the write path (`json.Marshal` of the item, the two `txn.Set` stagings,
`txn.Commit`) may be made to return an error. -/
structure BadgerSetFaults where
  marshalErr : Option String := none
  stageContentErr : Option String := none
  stageTTLErr : Option String := none
  commitErr : Option String := none
deriving Repr, DecidableEq

/-- Apply a transaction's staged writes to the store, in staging order
(badger applies a committed write batch atomically). -/
def txnCommit (pending : List (String × Bytes)) (s : Store) : Store :=
  pending.foldl (fun acc p => alistSet acc p.1 p.2) s

/-- `BadgerCache.Set` (badger.go lines 95-132): marshal the item and the
expiry `now + TTL`, open a write transaction, stage the `_content` write
then the `_ttl` write, and commit.  Every failure returns the error with
the transaction discarded, so the store below only changes through the
final commit. -/
def badgerSet (s : Store) (cacheKey : String) (item : Bytes)
    (now ttlDur : Int) (f : BadgerSetFaults) : GoErr × Store :=
  match f.marshalErr with
  | some e => (some e, s)
  | none =>
    let itemBytes := jsonMarshalBytes item
    let ttlBytes := marshalTime (now + ttlDur)
    match f.stageContentErr with
    | some e => (some e, s)
    | none =>
      match f.stageTTLErr with
      | some e => (some e, s)
      | none =>
        let pending := [(cacheKey ++ "_content", itemBytes),
                        (cacheKey ++ "_ttl", ttlBytes)]
        match f.commitErr with
        | some e => (some e, s)
        | none => (none, txnCommit pending s)

/-- `BadgerCache.GetItemTTL` (badger.go lines 137-172): read the `_ttl`
record inside a read-only transaction (absent means not found with a nil
error), deserialize, and return `expiry - now`.  It never deletes, so the
store is returned unchanged on every path. -/
def badgerGetItemTTL (s : Store) (cacheKey : String) (now : Int) :
    (Int × Bool × GoErr) × Store :=
  match storeGet s (cacheKey ++ "_ttl") with
  | none => ((0, false, none), s)
  | some v =>
    match unmarshalTime v with
    | none => ((0, false, some "json: cannot unmarshal value into time.Time"), s)
    | some ttl => ((ttl - now, true, none), s)

/-- `BadgerCache.ExtendTTL` (badger.go lines 177-184): call `Set` with the
caller's key and item, discarding its error, and return nil. -/
def badgerExtendTTL (s : Store) (cacheKey : String) (item : Bytes)
    (now ttlDur : Int) (f : BadgerSetFaults) : GoErr × Store :=
  (none, (badgerSet s cacheKey item now ttlDur f).2)

/-! ## Native-TTL adapter, in-memory variant: `GoCache` in goCache.go

The underlying patrickmn/go-cache library tracks per-entry expiration
natively.  We model it by its documented contract: a map from key to
(value, absolute expiry); a lookup returns the item only while it is
unexpired, and an expired or missing key reports not found. -/

/-- The go-cache map: key to (stored bytes, absolute expiry). -/
abbrev GoStore := List (String × (Bytes × Int))

/-- Model of the library's `cache.Get`: the item and a found flag. -/
def gocacheLibGet (st : GoStore) (k : String) (now : Int) :
    Option Bytes × Bool :=
  match alistGet st k with
  | some (b, e) => if now < e then (some b, true) else (none, false)
  | none => (none, false)

/-- Model of the library's `cache.Set`: upsert with expiry `now + d`. -/
def gocacheLibSet (st : GoStore) (k : String) (v : Bytes) (d now : Int) :
    GoStore :=
  alistSet st k (v, now + d)

/-- Model of the library's `cache.GetWithExpiration`: the item, its
expiration time (the zero time when not found) and a found flag. -/
def gocacheLibGetWithExpiration (st : GoStore) (k : String) (now : Int) :
    Option Bytes × Int × Bool :=
  match alistGet st k with
  | some (b, e) => if now < e then (some b, e, true) else (none, goZeroTimeUnix, false)
  | none => (none, goZeroTimeUnix, false)

/-- `GoCache.Get` (goCache.go lines 44-56): delegate to the library; a nil
item becomes an empty byte slice; the error is always nil. -/
def goCacheGet (st : GoStore) (k : String) (now : Int) :
    Bytes × Bool × GoErr :=
  match gocacheLibGet st k now with
  | (none, found) => ([], found, none)
  | (some b, found) => (b, found, none)

/-- `GoCache.Set` (goCache.go lines 64-71): store the bytes with the
configured TTL; always a nil error. -/
def goCacheSet (st : GoStore) (k : String) (item : Bytes) (ttlDur now : Int) :
    GoErr × GoStore :=
  (none, gocacheLibSet st k item ttlDur now)

/-- `GoCache.GetItemTTL` (goCache.go lines 76-86): `GetWithExpiration`,
then return `expiration - now` with the library's found flag. -/
def goCacheGetItemTTL (st : GoStore) (k : String) (now : Int) :
    Int × Bool × GoErr :=
  match gocacheLibGetWithExpiration st k now with
  | (_, e, found) => (e - now, found, none)

/-- `GoCache.ExtendTTL` (goCache.go lines 91-98): call `Set` and return
nil. -/
def goCacheExtendTTL (st : GoStore) (k : String) (item : Bytes)
    (ttlDur now : Int) : GoErr × GoStore :=
  goCacheSet st k item ttlDur now

/-! ## Native-TTL adapter, networked variant: `RedisCache` in goCache.go

The redis server owns expiration.  We model the reachable keyspace as a
map from key to (value, absolute expiry); the server hides expired keys
(`GET` returns redis.Nil, `TTL` returns -2, `EXPIRE` is a no-op), and the
fault-free run has no connection errors. -/

/-- The redis keyspace: key to (stored bytes, absolute expiry). -/
abbrev RedisStore := List (String × (Bytes × Int))

/-- Model of the server's GET: the value while the key is live. -/
def redisSrvGet (srv : RedisStore) (k : String) (now : Int) : Option Bytes :=
  match alistGet srv k with
  | some (b, e) => if now < e then some b else none
  | none => none

/-- Model of the server's SET with expiry `e`. -/
def redisSrvSet (srv : RedisStore) (k : String) (v : Bytes) (e : Int) :
    RedisStore :=
  alistSet srv k (v, e)

/-- Model of the server's EXPIRE: reset a live key's expiry to
`now + d`; a missing or expired key is left untouched (the command
reports 0 and a nil error). -/
def redisSrvExpire (srv : RedisStore) (k : String) (now d : Int) :
    RedisStore :=
  match alistGet srv k with
  | some (b, e) => if now < e then alistSet srv k (b, now + d) else srv
  | none => srv

/-- Model of the server's TTL: remaining seconds for a live key, -2 for a
missing-or-expired key. -/
def redisSrvTTL (srv : RedisStore) (k : String) (now : Int) : Int :=
  match alistGet srv k with
  | some (_, e) => if now < e then e - now else -2
  | none => -2

/-- `RedisCache.Get` (goCache.go lines 158-178): redis.Nil becomes
(not found, nil error); an item of length zero is also reported as not
found with the (nil) error; otherwise found. -/
def redisGet (srv : RedisStore) (k : String) (now : Int) :
    Bytes × Bool × GoErr :=
  match redisSrvGet srv k now with
  | none => ([], false, none)
  | some b => if b.length = 0 then (b, false, none) else (b, true, none)

/-- `RedisCache.Set` (goCache.go lines 182-187): server SET with the
configured TTL. -/
def redisSet (srv : RedisStore) (k : String) (item : Bytes)
    (ttlDur now : Int) : GoErr × RedisStore :=
  (none, redisSrvSet srv k item (now + ttlDur))

/-- `RedisCache.GetItemTTL` (goCache.go lines 191-202): the server's TTL
result, with found true whenever the command returned without error. -/
def redisGetItemTTL (srv : RedisStore) (k : String) (now : Int) :
    Int × Bool × GoErr :=
  (redisSrvTTL srv k now, true, none)

/-- `RedisCache.ExtendTTL` (goCache.go lines 206-211): the server's
EXPIRE with the configured TTL — the stored content is not touched and a
missing key is not created. -/
def redisExtendTTL (srv : RedisStore) (k : String) (_item : Bytes)
    (ttlDur now : Int) : GoErr × RedisStore :=
  (none, redisSrvExpire srv k now ttlDur)

/-! ## Configuration and the backend dispatcher: `src/config/config.go`
and `src/cache.go`

The tracer is modelled by its name string (nil when empty) and the Go
`context.Context` by an optional tag, since only their presence flows
through the dispatcher. -/

/-- `CacheGoConfig` (config.go lines 24-33); the source field named Type
is spelled `Typ` here because Type is reserved in Lean.  Zero values
mirror Go's. -/
structure CacheGoConfig where
  Typ : String := ""
  Expiration : String := ""
  RedisHost : String := ""
  RedisDB : Int := 0
  Path : String := ""
  TTL : Int := 0
  Tracer : String := ""
  CTX : Option Nat := none
deriving Repr, DecidableEq

/-- The package-level `config.DefaultConfig` value (config.go lines
38-45); the context tag 0 stands for `context.Background()`. -/
def DefaultConfig : CacheGoConfig :=
  { CTX := some 0
    Typ := "memory"
    Expiration := "10m"
    RedisHost := "127.0.0.1:6379"
    RedisDB := 0
    Path := "/tmp/cachego" }

/-- `mergo.Merge(&dst, src, mergo.WithOverride)` on `CacheGoConfig`:
every field of `src` that is not Go-zero overrides the corresponding
field of `dst`. -/
def mergeConfig (dst src : CacheGoConfig) : CacheGoConfig :=
  { Typ := if src.Typ = "" then dst.Typ else src.Typ
    Expiration := if src.Expiration = "" then dst.Expiration else src.Expiration
    RedisHost := if src.RedisHost = "" then dst.RedisHost else src.RedisHost
    RedisDB := if src.RedisDB = 0 then dst.RedisDB else src.RedisDB
    Path := if src.Path = "" then dst.Path else src.Path
    TTL := if src.TTL = 0 then dst.TTL else src.TTL
    Tracer := if src.Tracer = "" then dst.Tracer else src.Tracer
    CTX := if src.CTX = none then dst.CTX else src.CTX }

/-- Greedy split of a leading digit run. -/
def takeDigits : List Char → List Char × List Char
  | [] => ([], [])
  | c :: rest =>
    if c.isDigit then
      let r := takeDigits rest
      (c :: r.1, r.2)
    else ([], c :: rest)

/-- Decimal value of a digit run. -/
def digitsToNat (ds : List Char) : Nat :=
  ds.foldl (fun acc c => acc * 10 + (c.toNat - 48)) 0

/-- Seconds per duration unit letter (this model stays at second
granularity, so only the units s, m and h are recognized). -/
def durUnitSeconds : List Char → Option (Int × List Char)
  | 'h' :: rest => some (3600, rest)
  | 'm' :: rest => some (60, rest)
  | 's' :: rest => some (1, rest)
  | _ => none

/-- Accumulate number-unit components; the fuel is the input length. -/
def parseComponents : Nat → List Char → Int → Option Int
  | _, [], acc => some acc
  | 0, _ :: _, _ => none
  | fuel + 1, c :: cs, acc =>
    match takeDigits (c :: cs) with
    | ([], _) => none
    | (d :: ds, rest) =>
      match durUnitSeconds rest with
      | none => none
      | some (u, rest2) =>
        parseComponents fuel rest2 (acc + (digitsToNat (d :: ds) : Int) * u)

/-- Model of Go's `time.ParseDuration`, restricted to unsigned integer
components with whole-second units: a duration string such as 10m is a
nonempty sequence of number-unit pairs, the bare string 0 is allowed, and
anything else (including a missing unit or an unrecognized word) is a
parse error. -/
def parseDuration (s : String) : Option Int :=
  if s = "0" then some 0
  else
    match s.data with
    | [] => none
    | cs => parseComponents cs.length cs 0

/-- The in-memory backend instance (`providers.GoCache`): the library
handle is nil until `Init` creates the store. -/
structure GoCacheInst where
  Cache : Option GoStore := none
  Config : CacheGoConfig
deriving Repr, DecidableEq

/-- The embedded-kv backend instance (`providers.BadgerCache`): the DB
handle is nil until `Init` opens the path. -/
structure BadgerCacheInst where
  Cache : Option Store := none
  Path : String
  Config : CacheGoConfig
deriving Repr, DecidableEq

/-- The networked backend instance (`providers.RedisCache`). -/
structure RedisCacheInst where
  Address : String
  DB : Int
  Config : CacheGoConfig
deriving Repr, DecidableEq

/-- One constructed backend, as stored in `CacheInstance`. -/
inductive CacheBackend where
  | goCache (c : GoCacheInst)
  | badger (c : BadgerCacheInst)
  | redis (c : RedisCacheInst)
deriving Repr, DecidableEq

/-- The `GetConfig` method of each backend. -/
def CacheBackend.getConfig : CacheBackend → CacheGoConfig
  | .goCache c => c.Config
  | .badger c => c.Config
  | .redis c => c.Config

/-- Outcome of `CacheInit`: a returned instance, a returned error, or the
`log.Fatal` call on an unrecognized backend type (which terminates the
process without returning). -/
inductive CacheInitOutcome where
  | ok (b : CacheBackend)
  | err (e : String)
  | fatal (msg : String)
deriving Repr, DecidableEq

/-- Whether `CacheInit` handed an instance back to the caller. -/
def CacheInitOutcome.isOk : CacheInitOutcome → Bool
  | .ok _ => true
  | _ => false

/-- The badger DB handle inside an ok badger outcome, if any. -/
def CacheInitOutcome.badgerHandle : CacheInitOutcome → Option (Option Store)
  | .ok (.badger c) => some c.Cache
  | _ => none

/-- The switch on the resolved configuration type (cache.go lines
64-97): construct the matching backend instance — running its `Init`,
whose outcome for the embedded backend is `bo` and whose returned error
cache.go line 99 discards — assign the per-backend tracer into the
package configuration, or hit `log.Fatal` on an unrecognized type. -/
def dispatchBackend (cfg0 : CacheGoConfig) (bo : Except String Store) :
    CacheInitOutcome × CacheGoConfig :=
  if cfg0.Typ = "memory" then
    let cfg := { cfg0 with Tracer := "GoCache" }
    (.ok (.goCache { Cache := some [], Config := cfg }), cfg)
  else if cfg0.Typ = "file" ∨ cfg0.Typ = "badger" then
    let cfg := { cfg0 with Tracer := "FileCache" }
    let inst : BadgerCacheInst :=
      match bo with
      | .error _ => { Cache := none, Path := cfg.Path, Config := cfg }
      | .ok db => { Cache := some db, Path := cfg.Path, Config := cfg }
    (.ok (.badger inst), cfg)
  else if cfg0.Typ = "redis" then
    let cfg := { cfg0 with Tracer := "RedisCache" }
    let inst : RedisCacheInst :=
      { Address := cfg.RedisHost, DB := cfg.RedisDB, Config := cfg }
    (.ok (.redis inst), cfg)
  else
    (.fatal "No cache type selected or cache type is invalid", cfg0)

/-- `CacheInit` (cache.go lines 46-102).  `defCfg` is the current value
of the package-level mutable `config.DefaultConfig`, which the function
merges into and returns updated; `badgerOpen` is the outcome of
`badger.Open` for the embedded backend.  Note the source calls
`CacheInstance.Init()` on line 99 without inspecting its error: a failed
badger open still yields an ok outcome whose handle is nil. -/
def CacheInit (defCfg : CacheGoConfig) (ctx : Nat)
    (cacheConfig : CacheGoConfig) (badgerOpen : Except String Store) :
    CacheInitOutcome × CacheGoConfig :=
  match parseDuration (mergeConfig defCfg cacheConfig).Expiration with
  | none => (.err "time: invalid duration", mergeConfig defCfg cacheConfig)
  | some ttl =>
    dispatchBackend
      { mergeConfig defCfg cacheConfig with CTX := some ctx, TTL := ttl }
      badgerOpen

/-! ## Behavioral lemmas shared by the claim theorems -/

theorem key_ttl_ne_content (k : String) : k ++ "_ttl" ≠ k ++ "_content" := by
  intro h
  have h2 := congrArg String.length h
  simp [String.length_append] at h2
  exact absurd h2 (by decide)

theorem key_content_ne_ttl (k : String) : k ++ "_content" ≠ k ++ "_ttl" :=
  fun h => key_ttl_ne_content k h.symm

theorem retrieveFromCache_of_ttl (s : Store) (k : String) (t : Int)
    (h : storeGet s (k ++ "_ttl") = some (marshalTime t)) :
    retrieveFromCache s k = .ok ⟨t, storeGet s (k ++ "_content")⟩ := by
  unfold retrieveFromCache
  rw [h]
  cases hc : storeGet s (k ++ "_content") <;>
    simp [unmarshalTime_marshalTime, hc]

theorem badgerGet_expired (s : Store) (k : String) (t now : Int)
    (h : storeGet s (k ++ "_ttl") = some (marshalTime t)) (hle : t ≤ now) :
    badgerGet s k now =
      ((.ofItem ⟨t, storeGet s (k ++ "_content")⟩, false, none),
        badgerDelete s k) := by
  unfold badgerGet
  rw [retrieveFromCache_of_ttl s k t h]
  simp [hle]

theorem badgerGet_live (s : Store) (k : String) (t now : Int)
    (h : storeGet s (k ++ "_ttl") = some (marshalTime t)) (hlt : now < t) :
    badgerGet s k now =
      ((.ofContent (storeGet s (k ++ "_content")), true, none), s) := by
  unfold badgerGet
  rw [retrieveFromCache_of_ttl s k t h]
  simp [not_le.mpr hlt]

theorem badgerGet_missing (s : Store) (k : String) (now : Int)
    (h : storeGet s (k ++ "_ttl") = none) (hnow : goZeroTimeUnix ≤ now) :
    badgerGet s k now = ((.ofItem {}, false, none), badgerDelete s k) := by
  unfold badgerGet retrieveFromCache
  rw [h]
  simp [show ({} : BadgerItem).TTL ≤ now from hnow]

theorem badgerDelete_of_absent (s : Store) (k : String)
    (hc : storeGet s (k ++ "_content") = none)
    (ht : storeGet s (k ++ "_ttl") = none) :
    badgerDelete s k = s := by
  unfold badgerDelete
  rw [alistDel_of_get_none s _ hc, alistDel_of_get_none s _ ht]

theorem badgerSet_ok (s : Store) (k : String) (b : Bytes) (now ttl : Int) :
    badgerSet s k b now ttl {} =
      (none, alistSet (alistSet s (k ++ "_content") (jsonMarshalBytes b))
        (k ++ "_ttl") (marshalTime (now + ttl))) := rfl

theorem badgerSet_fault (s : Store) (k : String) (b : Bytes) (now ttl : Int)
    (f : BadgerSetFaults)
    (h : f.marshalErr ≠ none ∨ f.stageContentErr ≠ none ∨
      f.stageTTLErr ≠ none ∨ f.commitErr ≠ none) :
    (badgerSet s k b now ttl f).1 ≠ none ∧
      (badgerSet s k b now ttl f).2 = s := by
  unfold badgerSet
  rcases f with ⟨m, s1, s2, c⟩
  cases m <;> cases s1 <;> cases s2 <;> cases c <;> simp_all [txnCommit]

theorem badgerSet_ok_ttl_record (s : Store) (k : String) (b : Bytes)
    (now ttl : Int) :
    storeGet (badgerSet s k b now ttl {}).2 (k ++ "_ttl") =
      some (marshalTime (now + ttl)) := by
  rw [badgerSet_ok]
  exact alistGet_set_self _ _ _

theorem badgerSet_ok_content_record (s : Store) (k : String) (b : Bytes)
    (now ttl : Int) :
    storeGet (badgerSet s k b now ttl {}).2 (k ++ "_content") =
      some (jsonMarshalBytes b) := by
  rw [badgerSet_ok]
  show alistGet _ _ = _
  rw [alistGet_set_ne _ _ _ _ (key_content_ne_ttl k)]
  exact alistGet_set_self _ _ _

theorem goCacheGet_missing (st : GoStore) (k : String) (now : Int)
    (h : alistGet st k = none) : goCacheGet st k now = ([], false, none) := by
  unfold goCacheGet gocacheLibGet
  rw [h]

theorem goCacheGet_expired (st : GoStore) (k : String) (now : Int)
    (b : Bytes) (e : Int) (h : alistGet st k = some (b, e)) (hle : e ≤ now) :
    goCacheGet st k now = ([], false, none) := by
  unfold goCacheGet gocacheLibGet
  rw [h]
  simp [not_lt.mpr hle]

theorem goCacheGet_live (st : GoStore) (k : String) (now : Int)
    (b : Bytes) (e : Int) (h : alistGet st k = some (b, e)) (hlt : now < e) :
    goCacheGet st k now = (b, true, none) := by
  unfold goCacheGet gocacheLibGet
  rw [h]
  simp [hlt]

theorem redisGet_missing (srv : RedisStore) (k : String) (now : Int)
    (h : alistGet srv k = none) : redisGet srv k now = ([], false, none) := by
  unfold redisGet redisSrvGet
  rw [h]

theorem redisGet_expired (srv : RedisStore) (k : String) (now : Int)
    (b : Bytes) (e : Int) (h : alistGet srv k = some (b, e)) (hle : e ≤ now) :
    redisGet srv k now = ([], false, none) := by
  unfold redisGet redisSrvGet
  rw [h]
  simp [not_lt.mpr hle]

theorem redisGet_live (srv : RedisStore) (k : String) (now : Int)
    (b : Bytes) (e : Int) (h : alistGet srv k = some (b, e)) (hlt : now < e)
    (hne : b ≠ []) : redisGet srv k now = (b, true, none) := by
  unfold redisGet redisSrvGet
  rw [h]
  have hlen : ¬ b.length = 0 := by
    simpa [List.length_eq_zero] using hne
  simp [hlt, hlen]

theorem badgerDelete_get_content (s : Store) (k : String) :
    storeGet (badgerDelete s k) (k ++ "_content") = none := by
  unfold badgerDelete storeGet
  rw [alistGet_del_ne _ _ _ (key_content_ne_ttl k), alistGet_del_self]

theorem badgerDelete_get_ttl (s : Store) (k : String) :
    storeGet (badgerDelete s k) (k ++ "_ttl") = none := by
  unfold badgerDelete storeGet
  exact alistGet_del_self _ _

/-! ## Claim C1 -/

/-- C1: on every backend, a key whose entry is non-live (now at or past
the expiry) is never served: Get reports found false with a nil error,
and the embedded-kv adapter additionally deletes the entry's two physical
records, so an inspection of the store afterwards finds neither the
_content nor the _ttl record. -/
theorem claim_C1_expired_never_served :
    (∀ (s : Store) (k : String) (t now : Int),
      storeGet s (k ++ "_ttl") = some (marshalTime t) → t ≤ now →
        (badgerGet s k now).1.2.1 = false ∧
        (badgerGet s k now).1.2.2 = none ∧
        storeGet (badgerGet s k now).2 (k ++ "_content") = none ∧
        storeGet (badgerGet s k now).2 (k ++ "_ttl") = none) ∧
    (∀ (st : GoStore) (k : String) (b : Bytes) (e now : Int),
      alistGet st k = some (b, e) → e ≤ now →
        goCacheGet st k now = ([], false, none)) ∧
    (∀ (srv : RedisStore) (k : String) (b : Bytes) (e now : Int),
      alistGet srv k = some (b, e) → e ≤ now →
        redisGet srv k now = ([], false, none)) := by
  refine ⟨?_, ?_, ?_⟩
  · intro s k t now h hle
    rw [badgerGet_expired s k t now h hle]
    exact ⟨rfl, rfl, badgerDelete_get_content s k, badgerDelete_get_ttl s k⟩
  · intro st k b e now h hle
    exact goCacheGet_expired st k now b e h hle
  · intro srv k b e now h hle
    exact redisGet_expired srv k now b e h hle

/-- Witness for C1 at concrete stale entries on each backend. -/
theorem claim_C1_expired_never_served_witness :
    ((badgerGet [("k_ttl", marshalTime 5)] "k" 10).1.2.1 = false ∧
     (badgerGet [("k_ttl", marshalTime 5)] "k" 10).1.2.2 = none ∧
     storeGet (badgerGet [("k_ttl", marshalTime 5)] "k" 10).2
       ("k" ++ "_content") = none ∧
     storeGet (badgerGet [("k_ttl", marshalTime 5)] "k" 10).2
       ("k" ++ "_ttl") = none) ∧
    goCacheGet [("g", ([7], 5))] "g" 10 = ([], false, none) ∧
    redisGet [("r", ([8], 5))] "r" 10 = ([], false, none) :=
  ⟨claim_C1_expired_never_served.1 [("k_ttl", marshalTime 5)] "k" 5 10
      (by decide) (by decide),
   claim_C1_expired_never_served.2.1 [("g", ([7], 5))] "g" [7] 5 10
      (by decide) (by decide),
   claim_C1_expired_never_served.2.2 [("r", ([8], 5))] "r" [8] 5 10
      (by decide) (by decide)⟩

/-! ## Claim C4 -/

/-- C4: on every backend a key that was never written is reported as not
found with a nil error (not-found is a boolean result, not an error); the
embedded-kv adapter even leaves the store untouched on that path. -/
theorem claim_C4_not_found_is_not_error :
    (∀ (s : Store) (k : String) (now : Int),
      goZeroTimeUnix ≤ now →
      storeGet s (k ++ "_ttl") = none →
      storeGet s (k ++ "_content") = none →
        badgerGet s k now = ((.ofItem {}, false, none), s)) ∧
    (∀ (st : GoStore) (k : String) (now : Int), alistGet st k = none →
      goCacheGet st k now = ([], false, none)) ∧
    (∀ (srv : RedisStore) (k : String) (now : Int), alistGet srv k = none →
      redisGet srv k now = ([], false, none)) := by
  refine ⟨?_, ?_, ?_⟩
  · intro s k now hnow ht hc
    rw [badgerGet_missing s k now ht hnow, badgerDelete_of_absent s k hc ht]
  · intro st k now h
    exact goCacheGet_missing st k now h
  · intro srv k now h
    exact redisGet_missing srv k now h

/-- Witness for C4 on empty stores. -/
theorem claim_C4_not_found_is_not_error_witness :
    badgerGet [] "k" 0 = ((.ofItem {}, false, none), []) ∧
    goCacheGet [] "k" 0 = ([], false, none) ∧
    redisGet [] "k" 0 = ([], false, none) :=
  ⟨claim_C4_not_found_is_not_error.1 [] "k" 0 (by decide) (by decide)
      (by decide),
   claim_C4_not_found_is_not_error.2.1 [] "k" 0 (by decide),
   claim_C4_not_found_is_not_error.2.2 [] "k" 0 (by decide)⟩

/-! ## Claim C5 -/

/-- C5: the embedded-kv Set writes the _content and _ttl records in one
atomic transaction: any staging or commit failure surfaces the error and
leaves the store exactly as it was, a successful Set makes both records
visible together, and no record of any other physical key is touched in
either case. -/
theorem claim_C5_set_atomic :
    (∀ (s : Store) (k : String) (b : Bytes) (now ttl : Int)
      (f : BadgerSetFaults),
      f.marshalErr ≠ none ∨ f.stageContentErr ≠ none ∨
        f.stageTTLErr ≠ none ∨ f.commitErr ≠ none →
      (badgerSet s k b now ttl f).1 ≠ none ∧
        (badgerSet s k b now ttl f).2 = s) ∧
    (∀ (s : Store) (k : String) (b : Bytes) (now ttl : Int),
      (badgerSet s k b now ttl {}).1 = none ∧
      storeGet (badgerSet s k b now ttl {}).2 (k ++ "_content") =
        some (jsonMarshalBytes b) ∧
      storeGet (badgerSet s k b now ttl {}).2 (k ++ "_ttl") =
        some (marshalTime (now + ttl))) ∧
    (∀ (s : Store) (k : String) (b : Bytes) (now ttl : Int)
      (f : BadgerSetFaults) (j : String),
      j ≠ k ++ "_content" → j ≠ k ++ "_ttl" →
      storeGet (badgerSet s k b now ttl f).2 j = storeGet s j) := by
  refine ⟨badgerSet_fault, ?_, ?_⟩
  · intro s k b now ttl
    exact ⟨rfl, badgerSet_ok_content_record s k b now ttl,
      badgerSet_ok_ttl_record s k b now ttl⟩
  · intro s k b now ttl f j h1 h2
    rcases f with ⟨m, s1, s2, c⟩
    cases m <;> cases s1 <;> cases s2 <;> cases c <;> try rfl
    rw [badgerSet_ok]
    show alistGet _ _ = _
    rw [alistGet_set_ne _ _ _ _ h2, alistGet_set_ne _ _ _ _ h1]
    rfl

/-- Witness for C5: a commit failure leaves a concrete store unchanged,
a fault-free Set on it succeeds, and an unrelated key is untouched. -/
theorem claim_C5_set_atomic_witness :
    ((badgerSet [("x", [9])] "k" [1] 0 60
        { commitErr := some "conflict" }).1 ≠ none ∧
     (badgerSet [("x", [9])] "k" [1] 0 60
        { commitErr := some "conflict" }).2 = [("x", [9])]) ∧
    ((badgerSet [("x", [9])] "k" [1] 0 60 {}).1 = none ∧
     storeGet (badgerSet [("x", [9])] "k" [1] 0 60 {}).2
       ("k" ++ "_content") = some (jsonMarshalBytes [1]) ∧
     storeGet (badgerSet [("x", [9])] "k" [1] 0 60 {}).2
       ("k" ++ "_ttl") = some (marshalTime (0 + 60))) ∧
    storeGet (badgerSet [("x", [9])] "k" [1] 0 60 {}).2 "x" =
      storeGet [("x", [9])] "x" :=
  ⟨claim_C5_set_atomic.1 [("x", [9])] "k" [1] 0 60
      { commitErr := some "conflict" } (by simp),
   claim_C5_set_atomic.2.1 [("x", [9])] "k" [1] 0 60,
   claim_C5_set_atomic.2.2 [("x", [9])] "k" [1] 0 60 {} "x"
      (by decide) (by decide)⟩

/-! ## Claim C6 -/

/-- C6: GetTTL returns remaining = expiry - now with found true and a nil
error for any stored entry — on the embedded-kv adapter even when that
difference is zero or negative, and without deleting anything — and on a
freshly set key with default TTL T the returned duration d satisfies
0 < d and d ≤ T (in fact d = T at the instant of the Set). -/
theorem claim_C6_get_ttl_remaining :
    (∀ (s : Store) (k : String) (t now : Int),
      storeGet s (k ++ "_ttl") = some (marshalTime t) →
        badgerGetItemTTL s k now = ((t - now, true, none), s)) ∧
    (∀ (s : Store) (k : String) (b : Bytes) (now T : Int), 0 < T →
      badgerGetItemTTL (badgerSet s k b now T {}).2 k now =
        ((T, true, none), (badgerSet s k b now T {}).2) ∧ 0 < T ∧ T ≤ T) ∧
    (∀ (srv : RedisStore) (k : String) (b : Bytes) (e now : Int),
      alistGet srv k = some (b, e) → now < e →
        redisGetItemTTL srv k now = (e - now, true, none)) ∧
    (∀ (st : GoStore) (k : String) (b : Bytes) (now T : Int), 0 < T →
      goCacheGetItemTTL (goCacheSet st k b T now).2 k now =
        (T, true, none)) := by
  have hbadger : ∀ (s : Store) (k : String) (t now : Int),
      storeGet s (k ++ "_ttl") = some (marshalTime t) →
      badgerGetItemTTL s k now = ((t - now, true, none), s) := by
    intro s k t now h
    unfold badgerGetItemTTL
    rw [h]
    simp [unmarshalTime_marshalTime]
  refine ⟨hbadger, ?_, ?_, ?_⟩
  · intro s k b now T hT
    have h := hbadger (badgerSet s k b now T {}).2 k (now + T) now
      (badgerSet_ok_ttl_record s k b now T)
    have harith : now + T - now = T := by omega
    rw [harith] at h
    exact ⟨h, hT, le_rfl⟩
  · intro srv k b e now h hlt
    unfold redisGetItemTTL redisSrvTTL
    rw [h]
    simp [hlt]
  · intro st k b now T hT
    unfold goCacheGetItemTTL gocacheLibGetWithExpiration goCacheSet
      gocacheLibSet
    rw [alistGet_set_self]
    have hlt : now < now + T := by omega
    simp [hlt]

/-- Witness for C6: a stale embedded-kv entry yields a negative duration
with found true and no deletion; fresh sets yield exactly the default
TTL; a live redis key yields its remaining time. -/
theorem claim_C6_get_ttl_remaining_witness :
    badgerGetItemTTL [("k_ttl", marshalTime 5)] "k" 9 =
      ((-4, true, none), [("k_ttl", marshalTime 5)]) ∧
    (badgerGetItemTTL (badgerSet [] "k" [1] 0 600 {}).2 "k" 0 =
      ((600, true, none), (badgerSet [] "k" [1] 0 600 {}).2) ∧
      (0 : Int) < 600 ∧ (600 : Int) ≤ 600) ∧
    redisGetItemTTL [("r", ([8], 600))] "r" 0 = (600, true, none) ∧
    goCacheGetItemTTL (goCacheSet [] "g" [2] 600 0).2 "g" 0 =
      (600, true, none) :=
  ⟨by
      have h := claim_C6_get_ttl_remaining.1 [("k_ttl", marshalTime 5)]
        "k" 5 9 (by decide)
      simpa using h,
   claim_C6_get_ttl_remaining.2.1 [] "k" [1] 0 600 (by decide),
   by
      have h := claim_C6_get_ttl_remaining.2.2.1 [("r", ([8], 600))]
        "r" [8] 600 0 (by decide) (by decide)
      simpa using h,
   claim_C6_get_ttl_remaining.2.2.2 [] "g" [2] 0 600 (by decide)⟩

/-! ## Claim C2

The claim says ExtendTTL is equivalent to Set on every backend.  That is
what the in-memory and embedded-kv adapters do, but `RedisCache.ExtendTTL`
only issues EXPIRE: it refreshes the lifetime of an existing key and
leaves the stored content (and a missing key) untouched. -/

/-- C2 counterexample: on the networked backend, with key k holding old
content [111] and expiry 100, ExtendTTL with new content [110] at now = 0
returns a nil error, yet the following Get still returns the old content
[111] (found, nil error), not the caller-supplied [110] — so ExtendTTL is
not equivalent to Set there. -/
theorem claim_C2_counterexample :
    (redisExtendTTL [("k", ([111], 100))] "k" [110] 50 0).1 = none ∧
    redisGet (redisExtendTTL [("k", ([111], 100))] "k" [110] 50 0).2
      "k" 0 = ([111], true, none) ∧
    ([111] : Bytes) ≠ [110] := by
  decide

/-- C2 amended: ExtendTTL(key, content) behaves as Set(key, content) on
the in-memory backend (identical calls) and on the embedded-kv backend
(same store update, but Set's error is suppressed — ExtendTTL always
returns nil); on the networked backend ExtendTTL only resets a live
key's expiry to the configured default, leaving the stored content
unchanged, and does nothing at all for a missing key. -/
theorem claim_C2_extend_ttl_amended :
    (∀ (st : GoStore) (k : String) (b : Bytes) (ttlDur now : Int),
      goCacheExtendTTL st k b ttlDur now = goCacheSet st k b ttlDur now) ∧
    (∀ (s : Store) (k : String) (b : Bytes) (now ttlDur : Int)
      (f : BadgerSetFaults),
      badgerExtendTTL s k b now ttlDur f =
        (none, (badgerSet s k b now ttlDur f).2)) ∧
    (∀ (srv : RedisStore) (k : String) (b v : Bytes) (e ttlDur now : Int),
      alistGet srv k = some (v, e) → now < e →
      redisExtendTTL srv k b ttlDur now =
        (none, alistSet srv k (v, now + ttlDur))) ∧
    (∀ (srv : RedisStore) (k : String) (b : Bytes) (ttlDur now : Int),
      alistGet srv k = none →
      redisExtendTTL srv k b ttlDur now = (none, srv)) := by
  refine ⟨fun st k b ttlDur now => rfl, fun s k b now ttlDur f => rfl,
    ?_, ?_⟩
  · intro srv k b v e ttlDur now h hlt
    unfold redisExtendTTL redisSrvExpire
    rw [h]
    simp [hlt]
  · intro srv k b ttlDur now h
    unfold redisExtendTTL redisSrvExpire
    rw [h]

/-- Witness for the amended C2 at concrete stores on each backend. -/
theorem claim_C2_extend_ttl_amended_witness :
    goCacheExtendTTL [] "g" [3] 600 0 = goCacheSet [] "g" [3] 600 0 ∧
    badgerExtendTTL [] "k" [1] 0 600 { commitErr := some "conflict" } =
      (none, (badgerSet [] "k" [1] 0 600
        { commitErr := some "conflict" }).2) ∧
    redisExtendTTL [("k", ([111], 100))] "k" [110] 50 0 =
      (none, alistSet [("k", ([111], 100))] "k" ([111], 0 + 50)) ∧
    redisExtendTTL [] "k" [110] 50 0 = (none, []) :=
  ⟨claim_C2_extend_ttl_amended.1 [] "g" [3] 600 0,
   claim_C2_extend_ttl_amended.2.1 [] "k" [1] 0 600
      { commitErr := some "conflict" },
   claim_C2_extend_ttl_amended.2.2.1 [("k", ([111], 100))] "k" [110] [111]
      100 50 0 (by decide) (by decide),
   claim_C2_extend_ttl_amended.2.2.2 [] "k" [110] 50 0 (by decide)⟩

/-! ## Claim C3

The claim says Set then Get round-trips content byte-for-byte on every
backend.  The embedded-kv adapter stores `json.Marshal(item)` and its Get
returns those stored bytes raw (quoted base64 for a byte slice), and the
networked adapter reports found false for empty content, so byte-exact
round-tripping holds only on the in-memory backend. -/

/-- C3 counterexample: on the embedded-kv backend, Set("a", [104, 105])
succeeds, but the immediate Get (well before the TTL) returns the JSON
marshalled form of the content — quote, base64, quote — which differs
from the bytes passed to Set. -/
theorem claim_C3_counterexample :
    (badgerSet [] "a" [104, 105] 0 600 {}).1 = none ∧
    (badgerGet (badgerSet [] "a" [104, 105] 0 600 {}).2 "a" 0).1 =
      (.ofContent (some (jsonMarshalBytes [104, 105])), true, none) ∧
    jsonMarshalBytes [104, 105] ≠ [104, 105] := by
  decide

/-- C3 amended: immediately after a successful Set and before the TTL
elapses, Get reports found true with a nil error on every backend, and
the returned content is byte-for-byte the Set content on the in-memory
backend; on the embedded-kv backend the returned content is instead the
JSON marshalling of the Set content, and on the networked backend the
content round-trips byte-for-byte only when non-empty — a zero-length
content is reported as not found there. -/
theorem claim_C3_set_get_roundtrip_amended :
    (∀ (st : GoStore) (k : String) (b : Bytes) (now T : Int), 0 < T →
      goCacheGet (goCacheSet st k b T now).2 k now = (b, true, none)) ∧
    (∀ (s : Store) (k : String) (b : Bytes) (now T : Int), 0 < T →
      badgerGet (badgerSet s k b now T {}).2 k now =
        ((.ofContent (some (jsonMarshalBytes b)), true, none),
          (badgerSet s k b now T {}).2)) ∧
    (∀ (srv : RedisStore) (k : String) (b : Bytes) (now T : Int),
      0 < T → b ≠ [] →
      redisGet (redisSet srv k b T now).2 k now = (b, true, none)) ∧
    (∀ (srv : RedisStore) (k : String) (now T : Int), 0 < T →
      redisGet (redisSet srv k [] T now).2 k now = ([], false, none)) := by
  refine ⟨?_, ?_, ?_, ?_⟩
  · intro st k b now T hT
    exact goCacheGet_live _ k now b (now + T) (alistGet_set_self _ _ _)
      (by omega)
  · intro s k b now T hT
    have h := badgerGet_live (badgerSet s k b now T {}).2 k (now + T) now
      (badgerSet_ok_ttl_record s k b now T) (by omega)
    rw [badgerSet_ok_content_record s k b now T] at h
    exact h
  · intro srv k b now T hT hne
    exact redisGet_live _ k now b (now + T) (alistGet_set_self _ _ _)
      (by omega) hne
  · intro srv k now T hT
    unfold redisGet redisSrvGet redisSet redisSrvSet
    rw [alistGet_set_self]
    simp [show now < now + T by omega]

/-- Witness for the amended C3 at concrete stores on each backend. -/
theorem claim_C3_set_get_roundtrip_amended_witness :
    goCacheGet (goCacheSet [] "g" [5, 6] 600 0).2 "g" 0 =
      ([5, 6], true, none) ∧
    badgerGet (badgerSet [] "a" [104, 105] 0 600 {}).2 "a" 0 =
      ((.ofContent (some (jsonMarshalBytes [104, 105])), true, none),
        (badgerSet [] "a" [104, 105] 0 600 {}).2) ∧
    redisGet (redisSet [] "r" [9] 600 0).2 "r" 0 = ([9], true, none) ∧
    redisGet (redisSet [] "r" [] 600 0).2 "r" 0 = ([], false, none) :=
  ⟨claim_C3_set_get_roundtrip_amended.1 [] "g" [5, 6] 0 600 (by decide),
   claim_C3_set_get_roundtrip_amended.2.1 [] "a" [104, 105] 0 600
      (by decide),
   claim_C3_set_get_roundtrip_amended.2.2.1 [] "r" [9] 0 600 (by decide)
      (by decide),
   claim_C3_set_get_roundtrip_amended.2.2.2 [] "r" 0 600 (by decide)⟩

/-! ## Claim C7

The claim says a present (unexpired) _ttl record with a missing _content
record is surfaced by the embedded-kv Get as not found.  The source
instead falls through to the live branch with a nil content: it returns
found TRUE with a nil content value (and a nil error) — no crash, but
not a not-found either. -/

/-- C7 counterexample: with only k_ttl present (expiry 100) and no
k_content record, Get at now = 0 reports found = true — not the found =
false the claim requires. -/
theorem claim_C7_counterexample :
    (badgerGet [("k_ttl", marshalTime 100)] "k" 0).1.2.1 = true := by
  decide

/-- C7 amended: when the _ttl record of a key exists and is unexpired but
the _content record is missing, the embedded-kv Get does not crash and
does not error, but it reports found true with a nil content value (the
Go nil interface), leaving the store untouched. -/
theorem claim_C7_ttl_without_content_amended (s : Store) (k : String)
    (t now : Int) (h : storeGet s (k ++ "_ttl") = some (marshalTime t))
    (hc : storeGet s (k ++ "_content") = none) (hlt : now < t) :
    badgerGet s k now = ((.ofContent none, true, none), s) := by
  have hl := badgerGet_live s k t now h hlt
  rw [hc] at hl
  exact hl

/-- Witness for the amended C7 at the concrete orphan-ttl store. -/
theorem claim_C7_ttl_without_content_amended_witness :
    badgerGet [("k_ttl", marshalTime 100)] "k" 0 =
      ((.ofContent none, true, none), [("k_ttl", marshalTime 100)]) :=
  claim_C7_ttl_without_content_amended [("k_ttl", marshalTime 100)] "k"
    100 0 (by decide) (by decide) (by decide)

/-! ## `CacheInit` characterizations -/

/-- The configuration coming out of the dispatch switch is its input
with (at most) the Tracer rewritten. -/
theorem dispatchBackend_resolved (cfg0 : CacheGoConfig)
    (bo : Except String Store) :
    ∃ tr, (dispatchBackend cfg0 bo).2 = { cfg0 with Tracer := tr } := by
  unfold dispatchBackend
  split
  · exact ⟨"GoCache", rfl⟩
  · split
    · exact ⟨"FileCache", rfl⟩
    · split
      · exact ⟨"RedisCache", rfl⟩
      · exact ⟨cfg0.Tracer, rfl⟩

/-- The dispatch switch either returns an instance whose stored Config is
exactly the final configuration state, or hits log.Fatal. -/
theorem dispatchBackend_cases (cfg0 : CacheGoConfig)
    (bo : Except String Store) :
    (∃ b c, dispatchBackend cfg0 bo = (.ok b, c) ∧ b.getConfig = c) ∨
    dispatchBackend cfg0 bo =
      (.fatal "No cache type selected or cache type is invalid", cfg0) := by
  unfold dispatchBackend
  split
  · exact .inl ⟨_, _, rfl, rfl⟩
  · split
    · cases bo <;> exact .inl ⟨_, _, rfl, rfl⟩
    · split
      · exact .inl ⟨_, _, rfl, rfl⟩
      · exact .inr rfl

/-- An unrecognized type falls through every case of the switch to the
log.Fatal branch. -/
theorem dispatchBackend_unknown (cfg0 : CacheGoConfig)
    (bo : Except String Store) (h1 : cfg0.Typ ≠ "memory")
    (h2 : cfg0.Typ ≠ "file") (h3 : cfg0.Typ ≠ "badger")
    (h4 : cfg0.Typ ≠ "redis") :
    dispatchBackend cfg0 bo =
      (.fatal "No cache type selected or cache type is invalid", cfg0) := by
  unfold dispatchBackend
  rw [if_neg h1, if_neg (not_or.mpr ⟨h2, h3⟩), if_neg h4]

/-- The configuration state after `CacheInit` is the merged configuration
with (at most) the CTX, TTL and Tracer fields rewritten; every other
field comes straight from the merge. -/
theorem cacheInit_resolved (dc : CacheGoConfig) (ctx : Nat)
    (cfg : CacheGoConfig) (bo : Except String Store) :
    ∃ ct tt tr, (CacheInit dc ctx cfg bo).2 =
      { mergeConfig dc cfg with CTX := ct, TTL := tt, Tracer := tr } := by
  unfold CacheInit
  cases hp : parseDuration (mergeConfig dc cfg).Expiration
  · exact ⟨(mergeConfig dc cfg).CTX, (mergeConfig dc cfg).TTL,
      (mergeConfig dc cfg).Tracer, rfl⟩
  · obtain ⟨tr, h⟩ := dispatchBackend_resolved
      { mergeConfig dc cfg with CTX := some ctx, TTL := _ } bo
    exact ⟨some ctx, _, tr, h⟩

theorem cacheInit_resolved_RedisHost (dc : CacheGoConfig) (ctx : Nat)
    (cfg : CacheGoConfig) (bo : Except String Store) :
    (CacheInit dc ctx cfg bo).2.RedisHost =
      if cfg.RedisHost = "" then dc.RedisHost else cfg.RedisHost := by
  obtain ⟨ct, tt, tr, h⟩ := cacheInit_resolved dc ctx cfg bo
  rw [h]
  rfl

theorem cacheInit_resolved_Path (dc : CacheGoConfig) (ctx : Nat)
    (cfg : CacheGoConfig) (bo : Except String Store) :
    (CacheInit dc ctx cfg bo).2.Path =
      if cfg.Path = "" then dc.Path else cfg.Path := by
  obtain ⟨ct, tt, tr, h⟩ := cacheInit_resolved dc ctx cfg bo
  rw [h]
  rfl

theorem cacheInit_resolved_Typ (dc : CacheGoConfig) (ctx : Nat)
    (cfg : CacheGoConfig) (bo : Except String Store) :
    (CacheInit dc ctx cfg bo).2.Typ =
      if cfg.Typ = "" then dc.Typ else cfg.Typ := by
  obtain ⟨ct, tt, tr, h⟩ := cacheInit_resolved dc ctx cfg bo
  rw [h]
  rfl

theorem cacheInit_resolved_Expiration (dc : CacheGoConfig) (ctx : Nat)
    (cfg : CacheGoConfig) (bo : Except String Store) :
    (CacheInit dc ctx cfg bo).2.Expiration =
      if cfg.Expiration = "" then dc.Expiration else cfg.Expiration := by
  obtain ⟨ct, tt, tr, h⟩ := cacheInit_resolved dc ctx cfg bo
  rw [h]
  rfl

theorem cacheInit_resolved_RedisDB (dc : CacheGoConfig) (ctx : Nat)
    (cfg : CacheGoConfig) (bo : Except String Store) :
    (CacheInit dc ctx cfg bo).2.RedisDB =
      if cfg.RedisDB = 0 then dc.RedisDB else cfg.RedisDB := by
  obtain ⟨ct, tt, tr, h⟩ := cacheInit_resolved dc ctx cfg bo
  rw [h]
  rfl

/-- `CacheInit` either returns a parse error with the store-state merely
merged, hits `log.Fatal`, or returns an instance whose stored `Config`
is exactly the final resolved configuration. -/
theorem cacheInit_cases (dc : CacheGoConfig) (ctx : Nat)
    (cfg : CacheGoConfig) (bo : Except String Store) :
    (∃ e, CacheInit dc ctx cfg bo = (.err e, mergeConfig dc cfg)) ∨
    (∃ msg c, CacheInit dc ctx cfg bo = (.fatal msg, c)) ∨
    (∃ b c, CacheInit dc ctx cfg bo = (.ok b, c) ∧ b.getConfig = c) := by
  unfold CacheInit
  cases hp : parseDuration (mergeConfig dc cfg).Expiration
  · exact .inl ⟨_, rfl⟩
  · rcases dispatchBackend_cases
      { mergeConfig dc cfg with CTX := some ctx, TTL := _ } bo with
      ⟨b, c, hd, hc⟩ | hd
    · exact .inr (.inr ⟨b, c, hd, hc⟩)
    · exact .inr (.inl ⟨_, _, hd⟩)

/-- An instance handed back by `CacheInit` carries the final resolved
configuration as its `Config` (what `GetConfig` returns). -/
theorem cacheInit_ok_getConfig (dc : CacheGoConfig) (ctx : Nat)
    (cfg : CacheGoConfig) (bo : Except String Store) (b : CacheBackend)
    (h : (CacheInit dc ctx cfg bo).1 = .ok b) :
    b.getConfig = (CacheInit dc ctx cfg bo).2 := by
  rcases cacheInit_cases dc ctx cfg bo with ⟨e, he⟩ | ⟨msg, c, hf⟩ |
    ⟨b', c, ho, hc⟩
  · rw [he] at h
    exact absurd h (by simp)
  · rw [hf] at h
    exact absurd h (by simp)
  · rw [ho] at h ⊢
    simp only [] at h
    cases h
    exact hc

/-! ## Claim C8 -/

/-- C8: when the merged configuration's backend type is none of memory,
file, badger or redis, the dispatcher never hands an instance back; as
soon as the TTL string parses it reaches the fatal configuration error
(the source's log.Fatal), and if the TTL string is itself malformed the
construction still fails, with the parse error. -/
theorem claim_C8_unknown_backend_fatal (dc : CacheGoConfig) (ctx : Nat)
    (cfg : CacheGoConfig) (bo : Except String Store)
    (h1 : (mergeConfig dc cfg).Typ ≠ "memory")
    (h2 : (mergeConfig dc cfg).Typ ≠ "file")
    (h3 : (mergeConfig dc cfg).Typ ≠ "badger")
    (h4 : (mergeConfig dc cfg).Typ ≠ "redis") :
    (CacheInit dc ctx cfg bo).1.isOk = false ∧
    ∀ ttl, parseDuration (mergeConfig dc cfg).Expiration = some ttl →
      (CacheInit dc ctx cfg bo).1 =
        .fatal "No cache type selected or cache type is invalid" := by
  unfold CacheInit
  cases hp : parseDuration (mergeConfig dc cfg).Expiration with
  | none => exact ⟨rfl, fun ttl h => nomatch h⟩
  | some ttl0 =>
    have hd := dispatchBackend_unknown
      { mergeConfig dc cfg with CTX := some ctx, TTL := ttl0 } bo h1 h2 h3 h4
    refine ⟨?_, fun ttl h => ?_⟩
    · show (dispatchBackend _ bo).1.isOk = false
      rw [hd]
      rfl
    · show (dispatchBackend _ bo).1 = _
      rw [hd]

/-- Witness for C8: backendType bogus (over the source defaults) reaches
the fatal configuration error. -/
theorem claim_C8_unknown_backend_fatal_witness :
    (CacheInit DefaultConfig 1 { Typ := "bogus" } (.ok [])).1.isOk =
      false ∧
    (CacheInit DefaultConfig 1 { Typ := "bogus" } (.ok [])).1 =
      .fatal "No cache type selected or cache type is invalid" :=
  ⟨(claim_C8_unknown_backend_fatal DefaultConfig 1 { Typ := "bogus" }
      (.ok []) (by decide) (by decide) (by decide) (by decide)).1,
   (claim_C8_unknown_backend_fatal DefaultConfig 1 { Typ := "bogus" }
      (.ok []) (by decide) (by decide) (by decide) (by decide)).2 600
      (by decide)⟩

/-! ## Claim C9

The claim says an `Init` failure propagates to the caller of `CacheInit`.
The source (cache.go line 99) calls `CacheInstance.Init()` and discards
the returned error: with the embedded backend and a failing
`badger.Open`, `CacheInit` still returns the instance with a nil error,
the instance's DB handle left nil. -/

/-- C9 divergence evidence: with backendType file and a failing
badger.Open, `CacheInit` reports success — the outcome is an ok instance
(nil error to the caller) whose badger DB handle is nil — instead of
propagating the Init failure. -/
theorem claim_C9_init_error_swallowed :
    (CacheInit DefaultConfig 1 { Typ := "file", Path := "/nonexistent" }
      (.error "cannot open badger storage")).1.isOk = true ∧
    (CacheInit DefaultConfig 1 { Typ := "file", Path := "/nonexistent" }
      (.error "cannot open badger storage")).1.badgerHandle = some none := by
  decide

/-! ## Claim C10 -/

/-- C10: `CacheInit` merges the supplied configuration over the shared
package-level DefaultConfig in place (override semantics) and stores the
context, parsed TTL and tracer into it, so across two successive calls a
field set by the first call and left zero-valued by the second persists
into the second call's resolved configuration — and the constructed
backend carries that resolved configuration. -/
theorem claim_C10_default_config_persists (dc : CacheGoConfig)
    (ctx1 ctx2 : Nat) (cfg1 cfg2 : CacheGoConfig)
    (bo1 bo2 : Except String Store) :
    (cfg2.RedisHost = "" → cfg1.RedisHost ≠ "" →
      (CacheInit (CacheInit dc ctx1 cfg1 bo1).2 ctx2 cfg2 bo2).2.RedisHost
        = cfg1.RedisHost) ∧
    (cfg2.Path = "" → cfg1.Path ≠ "" →
      (CacheInit (CacheInit dc ctx1 cfg1 bo1).2 ctx2 cfg2 bo2).2.Path
        = cfg1.Path) ∧
    (cfg2.Typ = "" → cfg1.Typ ≠ "" →
      (CacheInit (CacheInit dc ctx1 cfg1 bo1).2 ctx2 cfg2 bo2).2.Typ
        = cfg1.Typ) ∧
    (cfg2.Expiration = "" → cfg1.Expiration ≠ "" →
      (CacheInit (CacheInit dc ctx1 cfg1 bo1).2 ctx2 cfg2 bo2).2.Expiration
        = cfg1.Expiration) ∧
    (cfg2.RedisDB = 0 → cfg1.RedisDB ≠ 0 →
      (CacheInit (CacheInit dc ctx1 cfg1 bo1).2 ctx2 cfg2 bo2).2.RedisDB
        = cfg1.RedisDB) ∧
    ∀ b, (CacheInit (CacheInit dc ctx1 cfg1 bo1).2 ctx2 cfg2 bo2).1 =
        .ok b →
      b.getConfig =
        (CacheInit (CacheInit dc ctx1 cfg1 bo1).2 ctx2 cfg2 bo2).2 := by
  refine ⟨?_, ?_, ?_, ?_, ?_, ?_⟩
  · intro hz ho
    rw [cacheInit_resolved_RedisHost, if_pos hz,
      cacheInit_resolved_RedisHost, if_neg ho]
  · intro hz ho
    rw [cacheInit_resolved_Path, if_pos hz,
      cacheInit_resolved_Path, if_neg ho]
  · intro hz ho
    rw [cacheInit_resolved_Typ, if_pos hz,
      cacheInit_resolved_Typ, if_neg ho]
  · intro hz ho
    rw [cacheInit_resolved_Expiration, if_pos hz,
      cacheInit_resolved_Expiration, if_neg ho]
  · intro hz ho
    rw [cacheInit_resolved_RedisDB, if_pos hz,
      cacheInit_resolved_RedisDB, if_neg ho]
  · intro b h
    exact cacheInit_ok_getConfig _ ctx2 cfg2 bo2 b h

/-- Witness for C10: a RedisHost set only by the first call persists into
the second call's resolved configuration and into the backend the second
call constructs. -/
theorem claim_C10_default_config_persists_witness :
    (CacheInit (CacheInit DefaultConfig 1
        { Typ := "redis", RedisHost := "cache1:6379" } (.ok [])).2 2
        { Typ := "redis" } (.ok [])).2.RedisHost = "cache1:6379" :=
  (claim_C10_default_config_persists DefaultConfig 1 2
      { Typ := "redis", RedisHost := "cache1:6379" } { Typ := "redis" }
      (.ok []) (.ok [])).1 (by decide) (by decide)

end Cachego
